import Mathlib

/-!
Verification development for the home24 web-page analyzer (Go).

The repository contains two variants of the analyzer:

* variant P3 — `DefaultPageAnalyzer` (src/unnamed/part_003) together with the
  `DefaultHTMLParser` extraction functions (src/unnamed/part_001) and
  `DefaultLinkChecker` (src/internal/analyzer/link_checker.go);
* variant PA — `PageAnalyzer` (src/internal/analyzer/analyzer.go), whose
  sequential twin `analyzeNode` appears in src/internal/analyzer/interfaces.go.

All Go traversals below are preorder walks of the parsed HTML node tree that
thread an accumulator through the visit; they are embedded as instances of a
single generic preorder fold over a node tree.  Collaborator functions from
the Go standard library (`net/url`) are modelled explicitly where their
success/failure behaviour matters.
-/

namespace Home24

/-! ## String utilities (models of Go `strings` operations, over `List Char`) -/

/-- Model of an ASCII lower-casing of a character, as done by
`strings.ToLower` on the ASCII doctype strings that occur in this program. -/
def lowerChar (c : Char) : Char :=
  if 'A' ≤ c ∧ c ≤ 'Z' then Char.ofNat (c.toNat + 32) else c

/-- Model of Go `strings.ToLower`, restricted to ASCII case mapping. -/
def lowerStr (s : String) : String :=
  ⟨s.data.map lowerChar⟩

/-- Does the list `l` start with the list `pat`?  Model of the character-level
content of Go `strings.HasPrefix`. -/
def startsWithL (pat l : List Char) : Bool :=
  match pat, l with
  | [], _ => true
  | _ :: _, [] => false
  | p :: ps, c :: cs => p == c && startsWithL ps cs

/-- Does `l` contain `pat` as a contiguous sublist?  Character-level model of
Go `strings.Contains`. -/
def hasInfixL (pat : List Char) : List Char → Bool
  | [] => pat.isEmpty
  | c :: cs => startsWithL pat (c :: cs) || hasInfixL pat cs

/-- Model of Go `strings.Contains s pat`. -/
def strContainsSub (s pat : String) : Bool :=
  hasInfixL pat.data s.data

/-- Model of Go `strings.HasPrefix s pat`. -/
def strStartsWith (s pat : String) : Bool :=
  startsWithL pat.data s.data

/-! ## The parsed HTML node tree

Model of the `golang.org/x/net/html` node tree, which the spec treats as a
black box producing "a traversable node tree with node kind, tag name,
attributes, and parent/child/sibling links".  The child/sibling chain of a Go
`html.Node` is represented as a list of children. -/

/-- Node kinds of `golang.org/x/net/html`. -/
inductive NodeType where
  | errorNode
  | text
  | document
  | element
  | comment
  | doctype
  deriving DecidableEq

/-- One attribute of an HTML element (`html.Attribute`, namespace omitted —
the program never inspects it). -/
structure NAttr where
  key : String
  val : String
  deriving DecidableEq

/-- A parsed HTML node (`html.Node`): kind, `Data` (tag name / text / doctype
text), attributes, and children (Go's `FirstChild`/`NextSibling` chain). -/
inductive Node where
  | mk (type : NodeType) (data : String) (attrs : List NAttr) (children : List Node)

/-- Node kind accessor. -/
def Node.type : Node → NodeType
  | .mk ty _ _ _ => ty

/-- Node `Data` accessor. -/
def Node.data : Node → String
  | .mk _ d _ _ => d

/-- Node attribute-list accessor. -/
def Node.attrs : Node → List NAttr
  | .mk _ _ a _ => a

/-- Node children accessor (Go `FirstChild`/`NextSibling` chain). -/
def Node.children : Node → List Node
  | .mk _ _ _ cs => cs

/-! ## Generic preorder fold

Every extraction function of the program has the shape

    func f(n *html.Node) { if P(n) { update }; for c := range children { f(c) } }

i.e. it is a preorder fold of an update function over the tree.  `foldN` is
that fold; `preN` is the preorder listing of the nodes, and `foldN_eq_foldl`
lets every traversal be reasoned about as a `List.foldl` over `preN`. -/

mutual

/-- Preorder fold of `f` over a node tree: visit the node, then its children
left to right.  This is the traversal shape shared by every extraction
function in src/unnamed/part_001 and src/internal/analyzer. -/
def foldN {σ : Type} (f : σ → Node → σ) (s : σ) : Node → σ
  | .mk ty d a cs => foldL f (f s (.mk ty d a cs)) cs

/-- Preorder fold of `f` over a list of sibling subtrees. -/
def foldL {σ : Type} (f : σ → Node → σ) (s : σ) : List Node → σ
  | [] => s
  | c :: cs => foldL f (foldN f s c) cs

end

mutual

/-- Preorder listing of the nodes of a tree. -/
def preN : Node → List Node
  | .mk ty d a cs => .mk ty d a cs :: preL cs

/-- Preorder listing of the nodes of a list of sibling subtrees. -/
def preL : List Node → List Node
  | [] => []
  | c :: cs => preN c ++ preL cs

end

mutual

/-- A preorder fold is the `List.foldl` of the update function over the
preorder listing of the tree. -/
theorem foldN_eq_foldl {σ : Type} (f : σ → Node → σ) (s : σ) (n : Node) :
    foldN f s n = (preN n).foldl f s := by
  match n with
  | .mk ty d a cs =>
    rw [foldN, preN, List.foldl_cons, foldL_eq_foldl]

/-- List version of `foldN_eq_foldl`. -/
theorem foldL_eq_foldl {σ : Type} (f : σ → Node → σ) (s : σ) (ns : List Node) :
    foldL f s ns = (preL ns).foldl f s := by
  match ns with
  | [] => rw [foldL, preL, List.foldl_nil]
  | c :: cs =>
    rw [foldL, preL, List.foldl_append, foldN_eq_foldl, foldL_eq_foldl]

end

/-! ## Model of the `net/url` collaborator

`net/url` is the Go standard library, outside this repository.  The model
below captures the behaviour the analyzer depends on: `url.Parse` fails on
ASCII control characters and on invalid percent escapes, and otherwise yields
a URL with a scheme and a host (the authority component, port included);
`base.Parse(ref)` additionally resolves a relative reference against the
base.  Query/fragment/userinfo handling is irrelevant to the analyzer and is
not modelled. -/

/-- An ASCII control character (rejected by `url.Parse`). -/
def isCtlChar (c : Char) : Bool :=
  c.toNat < 32 || c.toNat == 127

/-- An ASCII letter. -/
def isAlphaChar (c : Char) : Bool :=
  ('a' ≤ c && c ≤ 'z') || ('A' ≤ c && c ≤ 'Z')

/-- A character allowed inside a URL scheme after the first letter. -/
def isSchemeChar (c : Char) : Bool :=
  isAlphaChar c || ('0' ≤ c && c ≤ '9') || c == '+' || c == '-' || c == '.'

/-- A hexadecimal digit. -/
def isHexDigit (c : Char) : Bool :=
  ('0' ≤ c && c ≤ '9') || ('a' ≤ c && c ≤ 'f') || ('A' ≤ c && c ≤ 'F')

/-- Every `%` in the list is followed by two hexadecimal digits (`url.Parse`
rejects strings with invalid percent escapes). -/
def validEsc : List Char → Bool
  | [] => true
  | '%' :: a :: b :: rest => isHexDigit a && isHexDigit b && validEsc rest
  | '%' :: _ => false
  | _ :: rest => validEsc rest

/-- Split a leading `scheme:` off a character list: the accumulator collects
scheme characters until a `:`; a non-scheme character means there is no
scheme. -/
def splitSchemeAux (acc : List Char) : List Char → Option (List Char × List Char)
  | [] => none
  | c :: cs =>
    if c == ':' then
      match acc with
      | [] => none
      | _ :: _ => some (acc.reverse, cs)
    else if isSchemeChar c then splitSchemeAux (c :: acc) cs
    else none

/-- The authority host of the part after the scheme: present only after
`//`, extending to the next `/`, `?` or `#` (port included, as in Go's
`URL.Host`). -/
def hostOf (rest : List Char) : List Char :=
  if startsWithL ['/', '/'] rest then
    (rest.drop 2).takeWhile (fun c => !(c == '/' || c == '?' || c == '#'))
  else []

/-- A parsed URL, reduced to the two components the analyzer reads:
`Scheme` and `Host`. -/
structure GoURL where
  scheme : String
  host : String
  deriving DecidableEq

/-- Model of Go `url.Parse`: fails on control characters and invalid percent
escapes; otherwise extracts the lower-cased scheme (when the prefix before
the first `:` is a well-formed scheme starting with a letter) and the
authority host. -/
def goUrlParse (s : String) : Option GoURL :=
  if s.data.any isCtlChar || !validEsc s.data then none
  else
    match splitSchemeAux [] s.data with
    | some (sch, rest) =>
      match sch with
      | c :: _ =>
        if isAlphaChar c then some ⟨⟨sch.map lowerChar⟩, ⟨hostOf rest⟩⟩
        else some ⟨"", ⟨hostOf s.data⟩⟩
      | [] => some ⟨"", ⟨hostOf s.data⟩⟩
    | none => some ⟨"", ⟨hostOf s.data⟩⟩

/-- Model of Go `baseURL.Parse(ref)` (parse then resolve the reference):
a ref with its own scheme stands alone; a protocol-relative ref (`//host…`)
takes the base's scheme; any other ref resolves to the base's scheme and
host. -/
def goResolve (base : GoURL) (ref : String) : Option GoURL :=
  match goUrlParse ref with
  | none => none
  | some u =>
    if u.scheme ≠ "" then some u
    else some ⟨base.scheme, if u.host ≠ "" then u.host else base.host⟩

/-! ## DOM extraction (src/unnamed/part_001, `DefaultHTMLParser`) -/

/-- The `Data` of a node's first child, used by the title extraction
(`n.FirstChild.Data`); only ever read under `n.children ≠ []`. -/
def firstChildData (n : Node) : String :=
  match n.children with
  | c :: _ => c.data
  | [] => ""

/-- The condition of part_001 line 35: `n.Type == html.ElementNode &&
n.Data == "title" && n.FirstChild != nil`. -/
def titleCond (n : Node) : Bool :=
  n.type == NodeType.element && n.data == "title" && !n.children.isEmpty

/-- Per-node update of `ExtractTitle` (part_001 lines 34-41): an element
named `title` with a first child (`n.FirstChild != nil`) overwrites the
accumulator with that child's `Data`. -/
def titleStep (acc : String) (n : Node) : String :=
  if titleCond n then firstChildData n else acc

/-- Function `ExtractTitle` (part_001 lines 31-44): preorder walk; the last matching
`title` element wins because each match overwrites the accumulator. -/
def ExtractTitle (doc : Node) : String :=
  foldN titleStep "" doc

/-- The heading-matching rule of part_001 line 51 and analyzer.go line 309:
an element whose tag name starts with `"h"` and has length exactly 2. -/
def isHeadingTag (d : String) : Bool :=
  strStartsWith d "h" && d.length == 2

/-- Per-node update of `ExtractHeadings` (part_001 lines 50-56): increment
the counter at the node's tag name when the heading rule matches. -/
def headingStep (m : String → Nat) (n : Node) : String → Nat :=
  if n.type = .element ∧ isHeadingTag n.data then
    fun t => if t = n.data then m t + 1 else m t
  else m

/-- Function `ExtractHeadings` (part_001 lines 47-60): the `headingCount` map, as a
function from tag name to count. -/
def ExtractHeadings (doc : Node) : String → Nat :=
  foldN headingStep (fun _ => 0) doc

/-- A link record (`LinkInfo` of src/internal/analyzer/types.go): the raw
href as written, and the internal/external flag computed at extraction. -/
structure LinkInfo where
  URL : String
  IsInternal : Bool
  deriving DecidableEq

/-- The href filter of part_001 line 71 and analyzer.go line 168: skip an
href that is empty, starts with `javascript:`, or starts with `#`. -/
def linkSkip (href : String) : Bool :=
  href == "" || strStartsWith href "javascript:" || strStartsWith href "#"

/-- One iteration of the href-attribute loop (part_001 lines 68-85): for an
`href` attribute, apply the filter, resolve against the base URL (skipping
silently on failure), and append the raw href with the internal/external
classification `linkURL.Host == "" || linkURL.Host == baseURL.Host`.  The
resolution collaborator is a parameter; the analyzer instantiates it with
`goResolve`. -/
def hrefStep (base : GoURL) (resolve : String → Option GoURL)
    (acc : List LinkInfo) (attr : NAttr) : List LinkInfo :=
  if attr.key == "href" then
    let href := attr.val
    if linkSkip href then acc
    else
      match resolve href with
      | none => acc
      | some linkURL =>
        acc ++ [{ URL := href,
                  IsInternal := linkURL.host == "" || linkURL.host == base.host }]
  else acc

/-- Links contributed by one node: the attribute loop of part_001 lines
68-85 over an `a` element. -/
def nodeLinks (base : GoURL) (resolve : String → Option GoURL) (n : Node) : List LinkInfo :=
  if n.type = .element ∧ n.data = "a" then
    n.attrs.foldl (hrefStep base resolve) []
  else []

/-- Per-node update of `ExtractLinks`: append this node's links. -/
def linkStep (base : GoURL) (resolve : String → Option GoURL)
    (acc : List LinkInfo) (n : Node) : List LinkInfo :=
  acc ++ nodeLinks base resolve n

/-- Function `ExtractLinks` (part_001 lines 63-94) and `collectLinks` (analyzer.go
lines 161-194, which emits the same records to a channel in the same
order): all link records in document (preorder) order. -/
def ExtractLinks (base : GoURL) (resolve : String → Option GoURL) (doc : Node) : List LinkInfo :=
  foldN (linkStep base resolve) [] doc

/-- Per-node update of `ExtractForms` (part_001 lines 101-103). -/
def formStep (acc : List Node) (n : Node) : List Node :=
  if n.type = .element ∧ n.data = "form" then acc ++ [n] else acc

/-- Function `ExtractForms` (part_001 lines 97-110): every `form` element subtree in
document order. -/
def ExtractForms (doc : Node) : List Node :=
  foldN formStep [] doc

/-- The doctype classification chain shared verbatim by part_001 lines
118-129, analyzer.go lines 293-304 and interfaces.go's `analyzeNode`:
lower-case the doctype text, then test the four patterns in order. -/
def classifyDoctype (raw : String) : String :=
  let doctype := lowerStr raw
  if strContainsSub doctype "html 5" || doctype == "html" then "HTML 5"
  else if strContainsSub doctype "html 4.01" then "HTML 4.01"
  else if strContainsSub doctype "xhtml 1.0" then "XHTML 1.0"
  else if strContainsSub doctype "xhtml 1.1" then "XHTML 1.1"
  else "Unknown"

/-- Per-node update of the HTML-version extraction: a doctype node
overwrites the accumulator with its classification. -/
def versionStep (acc : String) (n : Node) : String :=
  if n.type == NodeType.doctype then classifyDoctype n.data else acc

/-- Function `ExtractHTMLVersion` (part_001 lines 113-137): the accumulator starts as
the empty string (`var version string`), so a document without a doctype
node yields `""`. -/
def ExtractHTMLVersion (doc : Node) : String :=
  foldN versionStep "" doc

/-- The HTML version computed by the `PageAnalyzer` variant: analyzer.go
line 108 initializes `result.HTMLVersion` to `"Unknown"` before the walk of
`analyzeNodeParallel` (lines 290-305) overwrites it at doctype nodes. -/
def htmlVersionPA (doc : Node) : String :=
  foldN versionStep "Unknown" doc

/-! ## Login-form classifiers -/

/-- Is the node an `input` element carrying `type="password"`?  Inner check
of `containsPasswordInput` (analyzer.go lines 368-374). -/
def isPasswordInput (n : Node) : Bool :=
  n.type == NodeType.element && n.data == "input" &&
    n.attrs.any (fun attr => attr.key == "type" && attr.val == "password")

/-- Function `containsPasswordInput` (analyzer.go lines 366-386 and the identical
function in interfaces.go): does any node of the subtree match
`isPasswordInput`?  The source's early `return true` short-circuits the same
preorder walk. -/
def containsPasswordInput (n : Node) : Bool :=
  foldN (fun acc m => acc || isPasswordInput m) false n

/-- The action-attribute stage of `analyzeForm` (analyzer.go lines 345-355):
some `action` attribute value contains `"login"` or `"signin"`. -/
def actionSuggestsLogin (n : Node) : Bool :=
  n.attrs.any (fun attr =>
    attr.key == "action" && (strContainsSub attr.val "login" || strContainsSub attr.val "signin"))

/-- The per-form decision taken by `analyzeForm` (analyzer.go lines
343-363): true from the action attribute, otherwise from the presence of a
password input. -/
def isLoginFormPA (form : Node) : Bool :=
  actionSuggestsLogin form || containsPasswordInput form

/-- The three flags tracked by `isLoginForm` (part_003 lines 158-160). -/
structure LoginFlags where
  hasPassword : Bool
  hasUsername : Bool
  hasSubmit : Bool
  deriving DecidableEq

/-- The first `type` attribute value of a node (part_003 lines 166-172: the
loop breaks at the first `type` attribute), empty when absent. -/
def inputTypeOf (n : Node) : String :=
  match n.attrs.find? (fun attr => attr.key == "type") with
  | some attr => attr.val
  | none => ""

/-- Per-node flag update of `isLoginForm` (part_003 lines 163-195): an
`input` sets a flag according to its `type` attribute (`password`;
`text`/`email`; `submit`), a `button` with `type="submit"` sets the submit
flag. -/
def loginStep (fl : LoginFlags) (n : Node) : LoginFlags :=
  if n.type == NodeType.element then
    if n.data == "input" then
      let t := inputTypeOf n
      { fl with
        hasPassword := fl.hasPassword || t == "password"
        hasUsername := fl.hasUsername || t == "text" || t == "email"
        hasSubmit := fl.hasSubmit || t == "submit" }
    else if n.data == "button" then
      if n.attrs.any (fun attr => attr.key == "type" && attr.val == "submit") then
        { fl with hasSubmit := true }
      else fl
    else fl
  else fl

/-- Function `isLoginForm` (part_003 lines 157-199): walk the form subtree collecting
the three flags, then require all of them.  Note the `action` attribute is
never examined. -/
def isLoginForm (form : Node) : Bool :=
  let fl := foldN loginStep ⟨false, false, false⟩ form
  fl.hasPassword && fl.hasUsername && fl.hasSubmit

/-! ## Link accessibility checks

Network responses are modelled as `Option Nat`: `some code` is a completed
HTTP exchange with that status, `none` is a request-creation or
transport-level failure of `client.Do`. -/

/-- Function `CheckAccessibility` (src/internal/analyzer/link_checker.go lines
27-43): a single HEAD probe; accessible iff it completes with a status in
`[200,400)`.  There is no GET fallback in this checker. -/
def CheckAccessibility (headResp : Option Nat) : Bool :=
  match headResp with
  | none => false
  | some code => decide (200 ≤ code) && decide (code < 400)

/-- Function `checkLinkAccessibility` (analyzer.go lines 236-282): a HEAD probe; a
transport failure is `false` with no fallback (lines 248-253); status
exactly 200 is `true` (lines 257-259); any other status falls back to a GET
probe, accessible iff it completes with a status in `[200,300)` (line
281). -/
def checkLinkAccessibility (headResp getResp : Option Nat) : Bool :=
  match headResp with
  | none => false
  | some code =>
    if code == 200 then true
    else
      match getResp with
      | none => false
      | some gcode => decide (200 ≤ gcode) && decide (gcode < 300)

/-! ## Page fetch with retries (variant P3) -/

/-- Error classification of variant P3 (`AnalysisError` codes used by
part_003: `ErrInvalidURL`, `ErrFetchFailed`, `ErrParseFailed`). -/
inductive AError where
  | invalidURL
  | fetchFailed
  | parseFailed
  deriving DecidableEq

/-- The retry loop of `fetchPage` (part_003 lines 125-151), with `i` the
attempt index and `remaining` the iterations the `for` loop still allows
(`remaining = 0` is loop exit, line 153's "max retries exceeded").
`respond i` is the outcome of attempt `i`: `none` is a transport error
(lines 133-139), a status `≥ 500` is retried (lines 141-148), anything else
is returned as success (line 150).  `remaining = 1` means
`i == RetryAttempts-1`, the branch that gives up instead of sleeping. -/
def fetchPageGo (respond : Nat → Option Nat) : Nat → Nat → Except AError Nat
  | _, 0 => .error .fetchFailed
  | i, remaining + 1 =>
    match respond i with
    | none =>
      if remaining = 0 then .error .fetchFailed
      else fetchPageGo respond (i + 1) remaining
    | some code =>
      if 500 ≤ code then
        if remaining = 0 then .error .fetchFailed
        else fetchPageGo respond (i + 1) remaining
      else .ok code

/-- Function `fetchPage` (part_003 lines 121-154): run the retry loop from attempt 0
with `RetryAttempts` iterations available. -/
def fetchPage (retryAttempts : Nat) (respond : Nat → Option Nat) : Except AError Nat :=
  fetchPageGo respond 0 retryAttempts

/-! ## Orchestrator, variant P3 (`DefaultPageAnalyzer.Analyze`) -/

/-- Structure `AnalysisResult` of src/internal/analyzer/types.go; `Headings` is the
`map[string]int` as a total function, zero on absent keys. -/
structure AnalysisResult where
  URL : String
  Title : String
  Headings : String → Nat
  Links : List LinkInfo
  AccessibleLinks : Nat
  HasLoginForm : Bool
  HTMLVersion : String

/-- Go map assignment `m[k] = v` on an association-list representation:
update the entry in place when the key is present, append otherwise. -/
def mapSet (m : List (String × Bool)) (k : String) (v : Bool) : List (String × Bool) :=
  if m.any (fun e => e.1 == k) then
    m.map (fun e => if e.1 == k then (k, v) else e)
  else m ++ [(k, v)]

/-- The `linkResults` map built by part_003 lines 76-81: one
`CheckAccessibility` outcome per link occurrence, stored under the raw href
(`check` is the per-URL outcome of the checker within this analysis). -/
def linkResultsMap (check : String → Bool) (links : List LinkInfo) : List (String × Bool) :=
  links.foldl (fun m l => mapSet m l.URL (check l.URL)) []

/-- The accessible-link count of part_003 lines 84-89: the number of `true`
values in the `linkResults` map. -/
def countAccessible (m : List (String × Bool)) : Nat :=
  m.countP (fun e => e.2)

/-- Method `DefaultPageAnalyzer.Analyze` (part_003 lines 45-118).  Collaborator
outcomes are parameters: `respond` is the HTTP transport per fetch attempt,
`parseHTML` the outcome of `ParseHTML` on the response body (`none` is a
parse failure), `check` the per-URL outcome of
`checker.CheckAccessibility`.  URL validation is `url.Parse` alone (lines
50-53) — the scheme is never inspected here. -/
def AnalyzeP3 (retryAttempts : Nat) (targetURL : String) (respond : Nat → Option Nat)
    (parseHTML : Option Node) (check : String → Bool) : Except AError AnalysisResult :=
  match goUrlParse targetURL with
  | none => .error .invalidURL
  | some parsedURL =>
    match fetchPage retryAttempts respond with
    | .error e => .error e
    | .ok _ =>
      match parseHTML with
      | none => .error .parseFailed
      | some doc =>
        let links := ExtractLinks parsedURL (goResolve parsedURL) doc
        let linkResults := linkResultsMap check links
        .ok { URL := targetURL
              Title := ExtractTitle doc
              Headings := ExtractHeadings doc
              Links := links
              AccessibleLinks := countAccessible linkResults
              HasLoginForm := (ExtractForms doc).any isLoginForm
              HTMLVersion := ExtractHTMLVersion doc }

/-! ## Orchestrator, variant PA (`PageAnalyzer.Analyze`, analyzer.go) -/

/-- Error cases of analyzer.go `Analyze`: request creation (line 71-75),
transport failure (line 82-86), non-200 status (lines 92-95), parse failure
(lines 99-103). -/
inductive PAError where
  | requestFailed
  | fetchFailed
  | httpStatus (code : Nat)
  | parseFailed
  deriving DecidableEq

/-- Structure `AnalysisResult` of analyzer.go lines 35-43. -/
structure PAResult where
  HTMLVersion : String
  Title : String
  HeadingCount : String → Nat
  InternalLinks : Nat
  ExternalLinks : Nat
  InaccessibleLinks : Nat
  HasLoginForm : Bool

/-- Method `PageAnalyzer.Analyze` (analyzer.go lines 53-158).  The page fetch is a
single un-retried exchange `respond`; a completed response with status other
than 200 aborts the analysis (lines 92-95).  `collectLinks` feeds the same
records as `ExtractLinks` in the same order; `processLinks` (lines 197-233)
counts internal/external per occurrence and counts a link inaccessible when
`checkLinkAccessibility` is false (HEAD and GET outcomes per URL are
`checkHead`/`checkGet`).  `analyzeNodeParallel` computes the version, title,
heading counts and per-form login decision; its per-node updates are the
sequential steps used below (the walk is mutex-protected and the spec fixes
its outcome to be traversal-order independent). -/
def AnalyzePA (urlStr : String) (respond : Option Nat) (parseHTML : Option Node)
    (checkHead checkGet : String → Option Nat) : Except PAError PAResult :=
  match goUrlParse urlStr with
  | none => .error .requestFailed
  | some baseURL =>
    match respond with
    | none => .error .fetchFailed
    | some status =>
      if status ≠ 200 then .error (.httpStatus status)
      else
        match parseHTML with
        | none => .error .parseFailed
        | some doc =>
          let links := ExtractLinks baseURL (goResolve baseURL) doc
          .ok { HTMLVersion := htmlVersionPA doc
                Title := ExtractTitle doc
                HeadingCount := ExtractHeadings doc
                InternalLinks := links.countP (fun l => l.IsInternal)
                ExternalLinks := links.countP (fun l => !l.IsInternal)
                InaccessibleLinks :=
                  links.countP (fun l => !checkLinkAccessibility (checkHead l.URL) (checkGet l.URL))
                HasLoginForm := (ExtractForms doc).any isLoginFormPA }

/-! ## HTTP handler (src/unnamed/part_004, `analyzeHandler`) -/

/-- The distinct responses `analyzeHandler` can produce. -/
inductive HandlerOutcome where
  | redirectToIndex
  | badRequest
  | emptyURLError
  | invalidURLError
  | analysisErrorPage (e : AError)
  | resultPage (r : AnalysisResult)

/-- Function `analyzeHandler` (part_004 lines 10-95): non-POST redirects (lines
12-15), a form-parse failure is a 400 (lines 18-26), an empty `url` field
is an error page (lines 29-42), then the URL must parse and have scheme
`http` or `https` (lines 45-60) before `Analyze` is invoked (line 63). -/
def analyzeHandler (method : String) (formParseOk : Bool) (urlString : String)
    (analyze : String → Except AError AnalysisResult) : HandlerOutcome :=
  if method ≠ "POST" then .redirectToIndex
  else if !formParseOk then .badRequest
  else if urlString = "" then .emptyURLError
  else
    match goUrlParse urlString with
    | none => .invalidURLError
    | some parsedURL =>
      if parsedURL.scheme ≠ "http" ∧ parsedURL.scheme ≠ "https" then .invalidURLError
      else
        match analyze urlString with
        | .error e => .analysisErrorPage e
        | .ok r => .resultPage r

/-! ## Generic lemmas about the traversal folds -/

/-- Folding a disjunction accumulates `List.any`. -/
theorem foldl_or_eq (q : Node → Bool) (l : List Node) (b : Bool) :
    l.foldl (fun acc n => acc || q n) b = (b || l.any q) := by
  induction l generalizing b with
  | nil => simp
  | cons c cs ih => simp [ih, Bool.or_assoc]

/-- Folding an overwrite-on-match update yields the value at the last
matching element (the first match of the reversed list), or the initial
accumulator when nothing matches. -/
theorem foldl_overwrite {α : Type} (p : Node → Bool) (g : Node → α) (l : List Node) (init : α) :
    l.foldl (fun acc n => if p n then g n else acc) init =
      (match l.reverse.find? p with
       | some n => g n
       | none => init) := by
  induction l generalizing init with
  | nil => simp
  | cons c cs ih =>
    simp only [List.foldl_cons, List.reverse_cons, List.find?_append, ih]
    cases h : cs.reverse.find? p with
    | some n => simp [Option.or]
    | none =>
      simp only [Option.or]
      cases hp : p c <;> simp [List.find?, hp]

/-- Folding a per-node append accumulates the flattened per-node lists. -/
theorem foldl_append_eq {β : Type} (g : Node → List β) (l : List Node) (acc : List β) :
    l.foldl (fun a n => a ++ g n) acc = acc ++ (l.map g).flatten := by
  induction l generalizing acc with
  | nil => simp
  | cons c cs ih => simp [ih]

/-! ## Claim C1 — per-link accessibility check -/

/-- Modelled from the spec (section 4.3, steps 1-5): accessible iff the
HEAD-equivalent probe yields a status in `[200,400)`, or — when that probe
fails at transport level or yields a status outside that range — the
GET-equivalent fallback yields a status in `[200,300)`. -/
def specAccessible (headResp getResp : Option Nat) : Bool :=
  match headResp with
  | some code =>
    if 200 ≤ code ∧ code < 400 then true
    else
      match getResp with
      | some gcode => decide (200 ≤ gcode) && decide (gcode < 300)
      | none => false
  | none =>
    match getResp with
    | some gcode => decide (200 ≤ gcode) && decide (gcode < 300)
    | none => false

/-- Claim C1 is false on the code.  A HEAD response of 301 is in `[200,400)`,
so the claim demands `accessible = true`; `checkLinkAccessibility` instead
falls back to GET (its HEAD success test is `== 200`) and a GET of 404 makes
it return `false`.  Conversely, a HEAD of 404 with a GET of 200 should be
accessible per the claim, but `CheckAccessibility` (link_checker.go) has no
GET fallback at all and returns `false`. -/
theorem C1_claim_false :
    specAccessible (some 301) (some 404) = true ∧
    checkLinkAccessibility (some 301) (some 404) = false ∧
    specAccessible (some 404) (some 200) = true ∧
    CheckAccessibility (some 404) = false := by
  refine ⟨by decide, by decide, by decide, by decide⟩

/-- Amended C1: `checkLinkAccessibility` (analyzer.go) returns true iff the
HEAD probe completes with status exactly 200, or completes with another
status and the GET fallback completes with a status in `[200,300)` — a HEAD
transport failure is false with no fallback.  `CheckAccessibility`
(link_checker.go) returns true iff its single HEAD probe completes with a
status in `[200,400)`, with no fallback. -/
theorem C1_accessibility_characterization (headResp getResp : Option Nat) :
    (checkLinkAccessibility headResp getResp = true ↔
      headResp = some 200 ∨
        (∃ code, headResp = some code ∧ code ≠ 200 ∧
          ∃ gcode, getResp = some gcode ∧ 200 ≤ gcode ∧ gcode < 300)) ∧
    (CheckAccessibility headResp = true ↔
      ∃ code, headResp = some code ∧ 200 ≤ code ∧ code < 400) := by
  constructor
  · cases headResp with
    | none => simp [checkLinkAccessibility]
    | some code =>
      cases getResp with
      | none => by_cases h : code = 200 <;> simp [checkLinkAccessibility, h]
      | some gcode => by_cases h : code = 200 <;> simp [checkLinkAccessibility, h]
  · cases headResp with
    | none => simp [CheckAccessibility]
    | some code => simp [CheckAccessibility, and_assoc]

/-- Witness for C1's amended characterization at concrete probe outcomes. -/
theorem C1_accessibility_witness :
    checkLinkAccessibility (some 200) none = true ∧ CheckAccessibility (some 399) = true :=
  ⟨((C1_accessibility_characterization (some 200) none).1).mpr (Or.inl rfl),
   ((C1_accessibility_characterization (some 399) none).2).mpr ⟨399, rfl, by omega, by omega⟩⟩

/-! ## Claim C2 — non-2xx final responses -/

/-- Did the computation succeed? -/
def exceptOk {ε α : Type} : Except ε α → Bool
  | .ok _ => true
  | .error _ => false

/-- A minimal parsed document (empty document node). -/
def trivialDoc : Node := .mk .document "" [] []

/-- Any status accepted by the `fetchPage` retry loop is below 500: the loop
retries on `>= 500` and returns everything else as success. -/
theorem fetchPageGo_ok_lt (respond : Nat → Option Nat) :
    ∀ remaining i code, fetchPageGo respond i remaining = .ok code → code < 500 := by
  intro remaining
  induction remaining with
  | zero => intro i code h; simp [fetchPageGo] at h
  | succ rem ih =>
    intro i code h
    rw [fetchPageGo] at h
    cases hr : respond i with
    | none =>
      simp only [hr] at h
      by_cases h0 : rem = 0 <;> simp [h0] at h
      exact ih (i + 1) code h
    | some c =>
      simp only [hr] at h
      by_cases h5 : 500 ≤ c
      · rw [if_pos h5] at h
        by_cases h0 : rem = 0 <;> simp [h0] at h
        exact ih (i + 1) code h
      · rw [if_neg h5] at h
        cases h
        omega

/-- Claim C2 is false on variant P3: `fetchPage` treats the completed 404
response as success (it only retries on transport errors and statuses
`>= 500`), and `Analyze` then builds an `AnalysisResult` from that non-2xx
body instead of failing. -/
theorem C2_claim_false :
    fetchPage 3 (fun _ => some 404) = .ok 404 ∧
    ¬(200 ≤ 404 ∧ 404 < 300) ∧
    exceptOk (AnalyzeP3 3 "http://example.com" (fun _ => some 404)
      (some trivialDoc) (fun _ => false)) = true :=
  ⟨rfl, by omega, rfl⟩

/-- Amended C2: in variant PA (analyzer.go) a completed response with status
other than 200 always fails the analysis, so no result is ever built from a
non-2xx body; in variant P3 (part_003) `fetchPage` accepts any final status
below 500 — 4xx included — and `Analyze` then proceeds to a full result
whenever the URL parses and the body parses. -/
theorem C2_fetch_amended :
    (∀ retryAttempts respond code,
      fetchPage retryAttempts respond = .ok code → code < 500) ∧
    (∀ retryAttempts targetURL respond doc check code,
      fetchPage retryAttempts respond = .ok code →
      exceptOk (AnalyzeP3 retryAttempts targetURL respond (some doc) check) =
        (goUrlParse targetURL).isSome) ∧
    (∀ urlStr code parseHTML checkHead checkGet r, code ≠ 200 →
      AnalyzePA urlStr (some code) parseHTML checkHead checkGet ≠ .ok r) := by
  refine ⟨?_, ?_, ?_⟩
  · intro retryAttempts respond code h
    exact fetchPageGo_ok_lt respond retryAttempts 0 code h
  · intro retryAttempts targetURL respond doc check code h
    unfold AnalyzeP3
    cases hu : goUrlParse targetURL with
    | none => simp [exceptOk]
    | some parsedURL => simp [h, exceptOk]
  · intro urlStr code parseHTML checkHead checkGet r h
    unfold AnalyzePA
    cases hu : goUrlParse urlStr with
    | none => simp
    | some baseURL => simp [h]

/-- Witness for the amended C2 at concrete runs: a 404 is accepted by the
retry loop, a 204 fetch lets variant P3 assemble a result, and variant PA
rejects a 404 page. -/
theorem C2_fetch_witness :
    (404 : Nat) < 500 ∧
    exceptOk (AnalyzeP3 2 "http://h.test" (fun _ => some 204) (some trivialDoc) (fun _ => true)) =
      (goUrlParse "http://h.test").isSome ∧
    AnalyzePA "http://h.test" (some 404) none (fun _ => none) (fun _ => none) ≠
      .ok ⟨"Unknown", "", fun _ => 0, 0, 0, 0, false⟩ :=
  ⟨C2_fetch_amended.1 3 (fun _ => some 404) 404 rfl,
   C2_fetch_amended.2.1 2 "http://h.test" (fun _ => some 204) trivialDoc (fun _ => true) 204 rfl,
   C2_fetch_amended.2.2 "http://h.test" 404 none (fun _ => none) (fun _ => none) _ (by omega)⟩

/-! ## Claim C3 — URL validation before network activity -/

/-- Modelled from the spec (section 6): the input is a syntactically valid
absolute URL whose scheme is `http` or `https`. -/
def validHttpInput (s : String) : Bool :=
  match goUrlParse s with
  | none => false
  | some u => u.scheme == "http" || u.scheme == "https"

/-- Handler outcomes in which `Analyze` was invoked. -/
def callsAnalyze : HandlerOutcome → Bool
  | .analysisErrorPage _ => true
  | .resultPage _ => true
  | _ => false

/-- Every `fetchPage` failure is classified `fetchFailed`. -/
theorem fetchPageGo_error_eq (respond : Nat → Option Nat) :
    ∀ remaining i e, fetchPageGo respond i remaining = .error e → e = .fetchFailed := by
  intro remaining
  induction remaining with
  | zero =>
    intro i e h
    rw [fetchPageGo] at h
    cases h
    rfl
  | succ rem ih =>
    intro i e h
    rw [fetchPageGo] at h
    cases hr : respond i with
    | none =>
      simp only [hr] at h
      by_cases h0 : rem = 0
      · rw [if_pos h0] at h; cases h; rfl
      · rw [if_neg h0] at h; exact ih (i + 1) e h
    | some c =>
      simp only [hr] at h
      by_cases h5 : 500 ≤ c
      · rw [if_pos h5] at h
        by_cases h0 : rem = 0
        · rw [if_pos h0] at h; cases h; rfl
        · rw [if_neg h0] at h; exact ih (i + 1) e h
      · rw [if_neg h5] at h; cases h

/-- Claim C3 is false on the code: `"ftp://example.com"` is not a valid
http/https input, yet `Analyze` (part_003) does not return an invalid-URL
error — `url.Parse` succeeds, the scheme is never checked, and the analysis
proceeds into the fetch phase, failing there with a fetch error. -/
theorem C3_claim_false :
    validHttpInput "ftp://example.com" = false ∧
    AnalyzeP3 3 "ftp://example.com" (fun _ => none) none (fun _ => false) =
      .error .fetchFailed ∧
    AError.fetchFailed ≠ AError.invalidURL :=
  ⟨rfl, rfl, by decide⟩

/-- Amended C3: the scheme check lives in the HTTP handler, not in
`Analyze`.  `analyzeHandler` never invokes `Analyze` on an input that is not
a valid http/https URL, while `Analyze` itself returns an invalid-URL error
exactly when `url.Parse` fails — for any parseable non-http(s) input it
proceeds to the fetch phase regardless of scheme. -/
theorem C3_validation_amended :
    (∀ urlString method formParseOk analyze, validHttpInput urlString = false →
      callsAnalyze (analyzeHandler method formParseOk urlString analyze) = false) ∧
    (∀ targetURL retryAttempts respond parseHTML check,
      (goUrlParse targetURL).isNone = true →
      AnalyzeP3 retryAttempts targetURL respond parseHTML check = .error .invalidURL) ∧
    (∀ targetURL retryAttempts respond parseHTML check,
      (goUrlParse targetURL).isSome = true →
      AnalyzeP3 retryAttempts targetURL respond parseHTML check ≠ .error .invalidURL) := by
  refine ⟨?_, ?_, ?_⟩
  · intro s m fok an hv
    unfold analyzeHandler
    split_ifs with h1 h2 h3
    · rfl
    · rfl
    · rfl
    · cases hu : goUrlParse s with
      | none => rfl
      | some u =>
        have hv' : u.scheme ≠ "http" ∧ u.scheme ≠ "https" := by
          unfold validHttpInput at hv
          rw [hu] at hv
          simpa using hv
        show callsAnalyze
          (if u.scheme ≠ "http" ∧ u.scheme ≠ "https" then HandlerOutcome.invalidURLError
           else match an s with
                | Except.error e => HandlerOutcome.analysisErrorPage e
                | Except.ok r => HandlerOutcome.resultPage r) = false
        rw [if_pos hv']
        rfl
  · intro targetURL retryAttempts respond parseHTML check h
    cases hu : goUrlParse targetURL with
    | none => simp [AnalyzeP3, hu]
    | some u => simp [hu] at h
  · intro targetURL retryAttempts respond parseHTML check h
    cases hu : goUrlParse targetURL with
    | none => simp [hu] at h
    | some u =>
      unfold AnalyzeP3
      rw [hu]
      cases hf : fetchPage retryAttempts respond with
      | error e =>
        have he : e = .fetchFailed := fetchPageGo_error_eq respond retryAttempts 0 e hf
        subst he
        simp
      | ok code =>
        cases parseHTML with
        | none => simp
        | some doc => simp

/-- Witness for the amended C3: the handler filters out the `ftp` URL, a
control character makes `Analyze` fail with the invalid-URL error, and the
same `ftp` URL makes `Analyze` fail with a different error. -/
theorem C3_validation_witness :
    callsAnalyze (analyzeHandler "POST" true "ftp://example.com"
      (fun _ => Except.error AError.fetchFailed)) = false ∧
    AnalyzeP3 1 "bad\x00url" (fun _ => none) none (fun _ => false) = .error .invalidURL ∧
    AnalyzeP3 1 "ftp://example.com" (fun _ => none) none (fun _ => false) ≠
      .error .invalidURL :=
  ⟨C3_validation_amended.1 "ftp://example.com" "POST" true _ rfl,
   C3_validation_amended.2.1 "bad\x00url" 1 _ none _ rfl,
   C3_validation_amended.2.2 "ftp://example.com" 1 _ none _ rfl⟩

/-! ## Claim C4 — doctype classification and the no-doctype default -/

/-- The version fold resolves to the classification of the last doctype node
visited, or to the initial accumulator when the tree has no doctype node. -/
theorem version_fold_eq (doc : Node) (init : String) :
    foldN versionStep init doc =
      (match (preN doc).reverse.find? (fun n => n.type == NodeType.doctype) with
       | some n => classifyDoctype n.data
       | none => init) := by
  rw [foldN_eq_foldl]
  exact foldl_overwrite (fun n => n.type == NodeType.doctype)
    (fun n => classifyDoctype n.data) (preN doc) init

/-- The document has no doctype node anywhere. -/
def noDoctypeIn (doc : Node) : Bool :=
  (preN doc).all (fun n => !(n.type == NodeType.doctype))

/-- Claim C4 is false on the code: for a document without a doctype node,
`ExtractHTMLVersion` (part_001) returns the empty string — `var version
string` is never assigned — not `"Unknown"`. -/
theorem C4_claim_false :
    ExtractHTMLVersion (.mk .document "" [] [.mk .element "html" [] []]) = "" ∧
    ("" : String) ≠ "Unknown" :=
  ⟨rfl, by decide⟩

/-- Amended C4: the classification chain itself is as claimed (applied to
the lower-cased doctype text of a doctype node), but the no-doctype default
differs per variant: `ExtractHTMLVersion` yields `""`, while the
`PageAnalyzer` variant starts from `"Unknown"` and therefore reports
`"Unknown"`. -/
theorem C4_doctype_amended :
    (∀ d, ExtractHTMLVersion (.mk .document "" [] [.mk .doctype d [] []]) = classifyDoctype d) ∧
    (∀ doc, noDoctypeIn doc = true →
      ExtractHTMLVersion doc = "" ∧ htmlVersionPA doc = "Unknown") := by
  constructor
  · intro d
    simp [ExtractHTMLVersion, foldN, foldL, versionStep, Node.type, Node.data]
  · intro doc h
    have hnone : (preN doc).reverse.find? (fun n => n.type == NodeType.doctype) = none := by
      rw [List.find?_eq_none]
      intro n hn
      have := (List.all_eq_true.mp h) n (List.mem_reverse.mp hn)
      simpa using this
    constructor
    · unfold ExtractHTMLVersion
      rw [version_fold_eq, hnone]
    · unfold htmlVersionPA
      rw [version_fold_eq, hnone]

/-- Witness for the amended C4 at a concrete doctype and a concrete
doctype-free document. -/
theorem C4_doctype_witness :
    ExtractHTMLVersion (.mk .document "" [] [.mk .doctype "html" [] []]) = classifyDoctype "html" ∧
    ExtractHTMLVersion (.mk .document "" [] [.mk .element "html" [] []]) = "" ∧
    htmlVersionPA (.mk .document "" [] [.mk .element "html" [] []]) = "Unknown" :=
  ⟨C4_doctype_amended.1 "html",
   (C4_doctype_amended.2 (.mk .document "" [] [.mk .element "html" [] []]) rfl).1,
   (C4_doctype_amended.2 (.mk .document "" [] [.mk .element "html" [] []]) rfl).2⟩

/-! ## Claim C5 — heading counting rule -/

/-- Number of elements of the tree carrying a given tag name. -/
def countElemsTagged (doc : Node) (tag : String) : Nat :=
  (preN doc).countP (fun n => decide (n.type = NodeType.element) && (n.data == tag))

/-- The heading fold counts, per tag, the element nodes that both match the
heading rule and carry that tag. -/
theorem heading_fold (tag : String) (l : List Node) : ∀ (m : String → Nat),
    (l.foldl headingStep m) tag =
      m tag + l.countP (fun n =>
        decide (n.type = NodeType.element ∧ isHeadingTag n.data = true) && (n.data == tag)) := by
  induction l with
  | nil => intro m; simp
  | cons c cs ih =>
    intro m
    rw [List.foldl_cons, ih, List.countP_cons]
    unfold headingStep
    by_cases hc : c.type = NodeType.element ∧ isHeadingTag c.data = true
    · simp only [if_pos hc, decide_eq_true hc, Bool.true_and]
      by_cases ht : tag = c.data
      · have hbt : (c.data == tag) = true := by simp [ht]
        simp only [hbt, if_pos ht]
        rw [if_pos trivial]
        omega
      · have hbt : (c.data == tag) = false := by
          simp only [beq_eq_false_iff_ne, ne_eq]
          exact fun h => ht h.symm
        simp only [hbt, if_neg ht]
        rw [if_neg Bool.false_ne_true]
        omega
    · have hd : decide (c.type = NodeType.element ∧ isHeadingTag c.data = true) = false :=
        decide_eq_false hc
      simp only [if_neg hc, hd, Bool.false_and]
      rw [if_neg Bool.false_ne_true]
      omega

/-- Claim C5 is false on the code: the matching rule also counts the `hr`
element (tag starts with `h`, length 2), which is none of h1–h6 — so "no
element with any other tag name is ever counted" fails. -/
theorem C5_claim_false :
    ExtractHeadings (.mk .document "" [] [.mk .element "hr" [] []]) "hr" = 1 ∧
    ¬("hr" ∈ ["h1", "h2", "h3", "h4", "h5", "h6"]) ∧
    isHeadingTag "hr" = true := by
  refine ⟨rfl, by decide, rfl⟩

/-- Amended C5: the heading counter at a tag equals the number of elements
of the tree carrying that tag when the tag satisfies the
starts-with-`h`-and-length-2 rule (which admits h1–h6 but also `hr` and any
other two-character tag beginning with `h`), and is zero for every tag the
rule rejects. -/
theorem C5_heading_amended (doc : Node) (tag : String) :
    ExtractHeadings doc tag =
      if isHeadingTag tag then countElemsTagged doc tag else 0 := by
  unfold ExtractHeadings countElemsTagged
  rw [foldN_eq_foldl, heading_fold tag (preN doc) (fun _ => 0)]
  by_cases htag : isHeadingTag tag = true
  · rw [if_pos htag]
    have : ∀ n : Node,
        (decide (n.type = NodeType.element ∧ isHeadingTag n.data = true) && (n.data == tag)) =
        (decide (n.type = NodeType.element) && (n.data == tag)) := by
      intro n
      by_cases hb : (n.data == tag) = true
      · have hdat : n.data = tag := by simpa using hb
        rw [hb]
        by_cases he : n.type = NodeType.element
        · simp [he, hdat, htag]
        · simp [he]
      · rw [Bool.eq_false_iff.mpr hb]
        simp
    simp only [this]
    simp
  · rw [if_neg htag]
    have : ∀ n : Node,
        (decide (n.type = NodeType.element ∧ isHeadingTag n.data = true) && (n.data == tag)) = false := by
      intro n
      by_cases hb : (n.data == tag) = true
      · have hdat : n.data = tag := by simpa using hb
        have : isHeadingTag n.data = false := by
          rw [hdat]
          exact Bool.eq_false_iff.mpr htag
        simp [this]
      · rw [Bool.eq_false_iff.mpr hb]
        simp
    simp only [this]
    simp

/-! ## Claim C6 — login-form classification -/

/-- A node that sets the password flag of `isLoginForm`. -/
def pwdInputCond (n : Node) : Bool :=
  n.type == NodeType.element && n.data == "input" && inputTypeOf n == "password"

/-- A node that sets the username flag of `isLoginForm`. -/
def userInputCond (n : Node) : Bool :=
  n.type == NodeType.element && n.data == "input" &&
    (inputTypeOf n == "text" || inputTypeOf n == "email")

/-- A node that sets the submit flag of `isLoginForm`. -/
def submitInputCond (n : Node) : Bool :=
  (n.type == NodeType.element && n.data == "input" && inputTypeOf n == "submit") ||
    (n.type == NodeType.element && n.data == "button" &&
      n.attrs.any (fun attr => attr.key == "type" && attr.val == "submit"))

/-- The flag fold of `isLoginForm` accumulates, per flag, whether any node
matches the corresponding condition. -/
theorem login_fold (l : List Node) : ∀ fl : LoginFlags,
    l.foldl loginStep fl =
      ⟨fl.hasPassword || l.any pwdInputCond,
       fl.hasUsername || l.any userInputCond,
       fl.hasSubmit || l.any submitInputCond⟩ := by
  induction l with
  | nil =>
    intro fl
    obtain ⟨p, u, s⟩ := fl
    simp
  | cons c cs ih =>
    intro fl
    rw [List.foldl_cons, ih]
    simp only [List.any_cons]
    unfold loginStep
    by_cases h1 : (c.type == NodeType.element) = true
    · rw [if_pos h1]
      by_cases h2 : (c.data == "input") = true
      · rw [if_pos h2]
        have h2' : c.data = "input" := by simpa using h2
        simp [pwdInputCond, userInputCond, submitInputCond, h1, h2', Bool.or_assoc]
      · rw [if_neg h2]
        by_cases h3 : (c.data == "button") = true
        · rw [if_pos h3]
          by_cases h4 :
              (c.attrs.any (fun attr => attr.key == "type" && attr.val == "submit")) = true
          · rw [if_pos h4]
            simp [pwdInputCond, userInputCond, submitInputCond, h1, h2, h3, h4, Bool.or_assoc]
          · rw [if_neg h4]
            simp [pwdInputCond, userInputCond, submitInputCond, h1, h2, h3,
              Bool.eq_false_iff.mpr h4, Bool.or_assoc]
        · rw [if_neg h3]
          simp [pwdInputCond, userInputCond, submitInputCond, h1,
            Bool.eq_false_iff.mpr h2, Bool.eq_false_iff.mpr h3, Bool.or_assoc]
    · rw [if_neg h1]
      simp [pwdInputCond, userInputCond, submitInputCond, Bool.eq_false_iff.mpr h1]

/-- Function `containsPasswordInput` computes the existence of a password input in the
subtree. -/
theorem containsPasswordInput_eq (n : Node) :
    containsPasswordInput n = (preN n).any isPasswordInput := by
  unfold containsPasswordInput
  rw [foldN_eq_foldl, foldl_or_eq]
  simp

/-- Claim C6 is false on the code: the cited `isLoginForm` (part_003) never
examines the `action` attribute — a form with `action="/login"` and no
inputs satisfies the claim's action test yet is classified `false`. -/
theorem C6_claim_false :
    actionSuggestsLogin (.mk .element "form" [⟨"action", "/login"⟩] []) = true ∧
    strContainsSub "/login" "login" = true ∧
    isLoginForm (.mk .element "form" [⟨"action", "/login"⟩] []) = false :=
  ⟨rfl, rfl, rfl⟩

/-- Amended C6: only the `PageAnalyzer` classifier (`analyzeForm`) consults
the action attribute, falling back to the presence of a password input;
`isLoginForm` (part_003) ignores the action entirely and requires a
password input, a text/email input and a submit control together.  In each
variant the page-level `HasLoginForm` is the disjunction of its classifier
over the extracted forms. -/
theorem C6_login_amended :
    (∀ form, isLoginForm form =
      ((preN form).any pwdInputCond && (preN form).any userInputCond &&
        (preN form).any submitInputCond)) ∧
    (∀ form, isLoginFormPA form =
      (actionSuggestsLogin form || (preN form).any isPasswordInput)) ∧
    (∀ retryAttempts targetURL respond doc check r,
      AnalyzeP3 retryAttempts targetURL respond (some doc) check = .ok r →
      (r.HasLoginForm = true ↔ ∃ f ∈ ExtractForms doc, isLoginForm f = true)) := by
  refine ⟨?_, ?_, ?_⟩
  · intro form
    unfold isLoginForm
    rw [foldN_eq_foldl, login_fold]
    simp
  · intro form
    unfold isLoginFormPA
    rw [containsPasswordInput_eq]
  · intro retryAttempts targetURL respond doc check r h
    unfold AnalyzeP3 at h
    cases hu : goUrlParse targetURL with
    | none => rw [hu] at h; simp at h
    | some base =>
      rw [hu] at h
      cases hf : fetchPage retryAttempts respond with
      | error e => rw [hf] at h; simp at h
      | ok code =>
        rw [hf] at h
        simp only [Except.ok.injEq] at h
        subst h
        simp [List.any_eq_true]

/-- A concrete page with one strict login form for the C6 witness. -/
def c6doc : Node :=
  .mk .document "" [] [.mk .element "form" [] [
    .mk .element "input" [⟨"type", "password"⟩] [],
    .mk .element "input" [⟨"type", "text"⟩] [],
    .mk .element "button" [⟨"type", "submit"⟩] []]]

/-- The result variant P3 assembles for `c6doc`. -/
def c6res : AnalysisResult :=
  { URL := "http://e.com"
    Title := ExtractTitle c6doc
    Headings := ExtractHeadings c6doc
    Links := ExtractLinks ⟨"http", "e.com"⟩ (goResolve ⟨"http", "e.com"⟩) c6doc
    AccessibleLinks := countAccessible (linkResultsMap (fun _ => true)
      (ExtractLinks ⟨"http", "e.com"⟩ (goResolve ⟨"http", "e.com"⟩) c6doc))
    HasLoginForm := (ExtractForms c6doc).any isLoginForm
    HTMLVersion := ExtractHTMLVersion c6doc }

/-- Witness for the amended C6 at a concrete successful analysis. -/
theorem C6_login_witness :
    c6res.HasLoginForm = true ↔ ∃ f ∈ ExtractForms c6doc, isLoginForm f = true :=
  C6_login_amended.2.2 1 "http://e.com" (fun _ => some 200) c6doc (fun _ => true) c6res rfl

/-! ## Claim C7 — link extraction count, raw hrefs and order -/

/-- Modelled from the spec (section 8): the number of `href` attributes on
`a` elements whose value passes the non-empty / non-`javascript:` /
non-anchor filter, regardless of whether resolution succeeds. -/
def specFilterCount (doc : Node) : Nat :=
  ((preN doc).map (fun n =>
    if n.type = .element ∧ n.data = "a" then
      n.attrs.countP (fun attr => attr.key == "href" && !linkSkip attr.val)
    else 0)).sum

/-- The raw hrefs, in document order, of the `a`-element `href` attributes
that pass the filter and whose resolution succeeds (the spec's section 4.1:
"If resolution fails, skip silently"). -/
def specLinkHrefs (resolve : String → Option GoURL) (doc : Node) : List String :=
  ((preN doc).map (fun n =>
    if n.type = .element ∧ n.data = "a" then
      n.attrs.filterMap (fun attr =>
        if attr.key == "href" && !linkSkip attr.val && (resolve attr.val).isSome
        then some attr.val else none)
    else [])).flatten

/-- The href-attribute fold keeps the raw attribute values of the entries it
appends: filter-passing hrefs that resolve. -/
theorem href_fold (base : GoURL) (resolve : String → Option GoURL) (attrs : List NAttr) :
    ∀ acc : List LinkInfo,
    ((attrs.foldl (hrefStep base resolve) acc).map (fun l => l.URL)) =
      acc.map (fun l => l.URL) ++ attrs.filterMap (fun attr =>
        if attr.key == "href" && !linkSkip attr.val && (resolve attr.val).isSome
        then some attr.val else none) := by
  induction attrs with
  | nil => intro acc; simp
  | cons a as ih =>
    intro acc
    rw [List.foldl_cons, ih, List.filterMap_cons]
    unfold hrefStep
    by_cases h1 : (a.key == "href") = true
    · rw [if_pos h1]
      by_cases h2 : linkSkip a.val = true
      · rw [if_pos h2]
        simp [h1, h2]
      · rw [if_neg h2]
        cases hr : resolve a.val with
        | none => simp [h1, Bool.eq_false_iff.mpr h2, hr]
        | some u => simp [h1, Bool.eq_false_iff.mpr h2, hr]
    · rw [if_neg h1]
      simp [Bool.eq_false_iff.mpr h1]

/-- The raw hrefs contributed by one node. -/
theorem nodeLinks_map_url (base : GoURL) (resolve : String → Option GoURL) (n : Node) :
    (nodeLinks base resolve n).map (fun l => l.URL) =
      (if n.type = .element ∧ n.data = "a" then
        n.attrs.filterMap (fun attr =>
          if attr.key == "href" && !linkSkip attr.val && (resolve attr.val).isSome
          then some attr.val else none)
      else []) := by
  unfold nodeLinks
  by_cases h : n.type = .element ∧ n.data = "a"
  · rw [if_pos h, if_pos h, href_fold]
    simp
  · rw [if_neg h, if_neg h]
    rfl

/-- Function `ExtractLinks` yields the flattened per-node link lists in preorder. -/
theorem ExtractLinks_eq_flatten (base : GoURL) (resolve : String → Option GoURL) (doc : Node) :
    ExtractLinks base resolve doc = ((preN doc).map (nodeLinks base resolve)).flatten := by
  unfold ExtractLinks
  rw [foldN_eq_foldl]
  simpa using foldl_append_eq (nodeLinks base resolve) (preN doc) []

/-- Claim C7 is false on the code: the href `"%zz"` passes the
empty/javascript/anchor filter, but `baseURL.Parse` rejects its invalid
percent escape, so the record is silently dropped and `len(Links)` falls
below the filter count. -/
theorem C7_claim_false :
    (ExtractLinks ⟨"http", "example.com"⟩ (goResolve ⟨"http", "example.com"⟩)
      (.mk .document "" [] [.mk .element "a" [⟨"href", "%zz"⟩] []])).length = 0 ∧
    specFilterCount (.mk .document "" [] [.mk .element "a" [⟨"href", "%zz"⟩] []]) = 1 ∧
    (goResolve ⟨"http", "example.com"⟩ "%zz").isNone = true :=
  ⟨rfl, rfl, rfl⟩

/-- Amended C7: `Links` stores, in document order, exactly the raw hrefs of
the filter-passing `a`-element `href` attributes whose resolution against
the base URL succeeds, so `len(Links)` equals the count of such attributes
— which is at most, but not always equal to, the bare filter count. -/
theorem C7_links_amended (base : GoURL) (resolve : String → Option GoURL) (doc : Node) :
    (ExtractLinks base resolve doc).map (fun l => l.URL) = specLinkHrefs resolve doc ∧
    (ExtractLinks base resolve doc).length = (specLinkHrefs resolve doc).length := by
  have hmain : (ExtractLinks base resolve doc).map (fun l => l.URL) = specLinkHrefs resolve doc := by
    rw [ExtractLinks_eq_flatten]
    unfold specLinkHrefs
    rw [List.map_flatten, List.map_map]
    congr 1
    apply List.map_congr_left
    intro n _
    exact nodeLinks_map_url base resolve n
  exact ⟨hmain, by rw [← hmain, List.length_map]⟩

/-! ## Claims C9 and C10 — the `linkResults` map and the accessible count -/

/-- Update `mapSet` leaves the key set as the old keys plus the new key (an update
in place replaces a key with itself). -/
theorem mapSet_keys (m : List (String × Bool)) (k : String) (v : Bool) :
    ((mapSet m k v).map Prod.fst).toFinset = insert k ((m.map Prod.fst).toFinset) := by
  unfold mapSet
  by_cases h : (m.any (fun e => e.1 == k)) = true
  · rw [if_pos h]
    have hkeys : (m.map (fun e => if e.1 == k then (k, v) else e)).map Prod.fst =
        m.map Prod.fst := by
      rw [List.map_map]
      apply List.map_congr_left
      intro e _
      by_cases he : (e.1 == k) = true
      · have : e.1 = k := by simpa using he
        simp [Function.comp, he, this]
      · simp [Function.comp, he]
    rw [hkeys]
    have hk : k ∈ m.map Prod.fst := by
      rcases List.any_eq_true.mp h with ⟨e, he, heq⟩
      exact List.mem_map.mpr ⟨e, he, by simpa using heq⟩
    rw [Finset.insert_eq_self.mpr (List.mem_toFinset.mpr hk)]
  · rw [if_neg h]
    rw [List.map_append]
    simp [List.toFinset_append, Finset.insert_eq, Finset.union_comm]

/-- Update `mapSet` preserves distinctness of the keys. -/
theorem mapSet_keys_nodup (m : List (String × Bool)) (k : String) (v : Bool)
    (h : (m.map Prod.fst).Nodup) : ((mapSet m k v).map Prod.fst).Nodup := by
  unfold mapSet
  by_cases ha : (m.any (fun e => e.1 == k)) = true
  · rw [if_pos ha]
    have hkeys : (m.map (fun e => if e.1 == k then (k, v) else e)).map Prod.fst =
        m.map Prod.fst := by
      rw [List.map_map]
      apply List.map_congr_left
      intro e _
      by_cases he : (e.1 == k) = true
      · have : e.1 = k := by simpa using he
        simp [Function.comp, he, this]
      · simp [Function.comp, he]
    rw [hkeys]
    exact h
  · rw [if_neg ha]
    rw [List.map_append]
    have hk : k ∉ m.map Prod.fst := by
      intro hmem
      rcases List.mem_map.mp hmem with ⟨e, he, heq⟩
      exact ha (List.any_eq_true.mpr ⟨e, he, by simp [heq]⟩)
    simp only [List.map_cons, List.map_nil]
    rw [List.nodup_append]
    exact ⟨h, List.nodup_singleton k, by simpa [List.disjoint_singleton] using hk⟩

/-- Update `mapSet` preserves the invariant that every stored value is the
checker's verdict on its key. -/
theorem mapSet_values (ch : String → Bool) (m : List (String × Bool)) (k : String)
    (hm : ∀ e ∈ m, e.2 = ch e.1) : ∀ e ∈ mapSet m k (ch k), e.2 = ch e.1 := by
  unfold mapSet
  by_cases ha : (m.any (fun e => e.1 == k)) = true
  · rw [if_pos ha]
    intro e he
    rcases List.mem_map.mp he with ⟨x, hx, hxe⟩
    by_cases hxk : (x.1 == k) = true
    · rw [if_pos hxk] at hxe
      subst hxe
      rfl
    · rw [if_neg hxk] at hxe
      subst hxe
      exact hm x hx
  · rw [if_neg ha]
    intro e he
    rcases List.mem_append.mp he with hl | hr
    · exact hm e hl
    · rcases List.mem_singleton.mp hr with rfl
      rfl

/-- A distinct-keyed association list whose values are the checker's
verdicts has as many `true` values as there are keys the checker accepts. -/
theorem countTrue_eq (ch : String → Bool) (m : List (String × Bool))
    (hnd : (m.map Prod.fst).Nodup) (hv : ∀ e ∈ m, e.2 = ch e.1) :
    m.countP (fun e => e.2) =
      ((m.map Prod.fst).toFinset.filter (fun u => ch u = true)).card := by
  induction m with
  | nil => simp
  | cons e es ih =>
    have hnd' : e.1 ∉ es.map Prod.fst ∧ (es.map Prod.fst).Nodup := by
      rw [List.map_cons] at hnd
      exact List.nodup_cons.mp hnd
    obtain ⟨hne, hnd2⟩ := hnd'
    have hv2 : ∀ x ∈ es, x.2 = ch x.1 := fun x hx => hv x (List.mem_cons_of_mem _ hx)
    rw [List.countP_cons, ih hnd2 hv2]
    simp only [List.map_cons, List.toFinset_cons]
    rw [Finset.filter_insert]
    have hcard : e.1 ∉ (es.map Prod.fst).toFinset := by simpa using hne
    by_cases hch : ch e.1 = true
    · rw [if_pos hch]
      rw [Finset.card_insert_of_not_mem (fun hmem => hcard (Finset.mem_of_mem_filter _ hmem))]
      have he2 : (e.2 = true) := by rw [hv e (List.mem_cons_self _ _)]; exact hch
      rw [if_pos he2]
    · rw [if_neg hch]
      have he2 : ¬(e.2 = true) := fun hh => hch (by rw [← hv e (List.mem_cons_self _ _)]; exact hh)
      rw [if_neg he2]
      omega

/-- Folding link occurrences into the map accumulates the distinct URLs. -/
theorem linkResults_fold (ch : String → Bool) :
    ∀ (links : List LinkInfo) (m : List (String × Bool)),
    (m.map Prod.fst).Nodup → (∀ e ∈ m, e.2 = ch e.1) →
    (links.foldl (fun m l => mapSet m l.URL (ch l.URL)) m).countP (fun e => e.2) =
      (((m.map Prod.fst).toFinset ∪ (links.map (fun l => l.URL)).toFinset).filter
        (fun u => ch u = true)).card := by
  intro links
  induction links with
  | nil =>
    intro m h1 h2
    rw [List.foldl_nil, countTrue_eq ch m h1 h2]
    simp
  | cons l ls ih =>
    intro m h1 h2
    rw [List.foldl_cons,
      ih (mapSet m l.URL (ch l.URL)) (mapSet_keys_nodup m l.URL (ch l.URL) h1)
        (mapSet_values ch m l.URL h2),
      mapSet_keys]
    simp only [List.map_cons, List.toFinset_cons]
    congr 1
    rw [Finset.insert_union, Finset.union_insert]

/-- The accessible-link count of variant P3 is the number of distinct link
URLs the checker accepts. -/
theorem countAccessible_char (ch : String → Bool) (links : List LinkInfo) :
    countAccessible (linkResultsMap ch links) =
      ((links.map (fun l => l.URL)).toFinset.filter (fun u => ch u = true)).card := by
  unfold countAccessible linkResultsMap
  rw [linkResults_fold ch links [] (by simp) (by simp)]
  simp

/-- Claim C9: in every successfully assembled result, `AccessibleLinks` is
at most `len(Links)` and the derived inaccessible count complements it
exactly, whatever the checker outcomes were. -/
theorem C9_accessible_invariant (retryAttempts : Nat) (targetURL : String)
    (respond : Nat → Option Nat) (parseHTML : Option Node) (check : String → Bool)
    (r : AnalysisResult)
    (h : AnalyzeP3 retryAttempts targetURL respond parseHTML check = .ok r) :
    r.AccessibleLinks ≤ r.Links.length ∧
    r.AccessibleLinks + (r.Links.length - r.AccessibleLinks) = r.Links.length := by
  unfold AnalyzeP3 at h
  cases hu : goUrlParse targetURL with
  | none => rw [hu] at h; simp at h
  | some base =>
    rw [hu] at h
    cases hf : fetchPage retryAttempts respond with
    | error e => rw [hf] at h; simp at h
    | ok code =>
      rw [hf] at h
      cases parseHTML with
      | none => simp at h
      | some doc =>
        simp only [Except.ok.injEq] at h
        subst h
        dsimp only
        have hb : countAccessible (linkResultsMap check (ExtractLinks base (goResolve base) doc)) ≤
            (ExtractLinks base (goResolve base) doc).length := by
          rw [countAccessible_char]
          calc ((((ExtractLinks base (goResolve base) doc).map (fun l => l.URL)).toFinset.filter
                (fun u => check u = true)).card)
              ≤ ((ExtractLinks base (goResolve base) doc).map (fun l => l.URL)).toFinset.card :=
                Finset.card_filter_le _ _
            _ ≤ ((ExtractLinks base (goResolve base) doc).map (fun l => l.URL)).length :=
                List.toFinset_card_le _
            _ = (ExtractLinks base (goResolve base) doc).length := List.length_map _ _
        exact ⟨hb, by omega⟩

/-- The result variant P3 assembles for the trivial document. -/
def c9res : AnalysisResult :=
  { URL := "http://w.org"
    Title := ExtractTitle trivialDoc
    Headings := ExtractHeadings trivialDoc
    Links := ExtractLinks ⟨"http", "w.org"⟩ (goResolve ⟨"http", "w.org"⟩) trivialDoc
    AccessibleLinks := countAccessible (linkResultsMap (fun _ => true)
      (ExtractLinks ⟨"http", "w.org"⟩ (goResolve ⟨"http", "w.org"⟩) trivialDoc))
    HasLoginForm := (ExtractForms trivialDoc).any isLoginForm
    HTMLVersion := ExtractHTMLVersion trivialDoc }

/-- Witness for C9 at a concrete successful analysis. -/
theorem C9_accessible_witness :
    c9res.AccessibleLinks ≤ c9res.Links.length ∧
    c9res.AccessibleLinks + (c9res.Links.length - c9res.AccessibleLinks) = c9res.Links.length :=
  C9_accessible_invariant 1 "http://w.org" (fun _ => some 200) (some trivialDoc)
    (fun _ => true) c9res rfl

/-- A page with the same accessible href twice. -/
def dupDoc : Node :=
  .mk .document "" [] [.mk .element "a" [⟨"href", "http://a/"⟩] [],
    .mk .element "a" [⟨"href", "http://a/"⟩] []]

/-- The result variant P3 assembles for `dupDoc` with an all-accessible
checker. -/
def c10res : AnalysisResult :=
  { URL := "http://dup.test"
    Title := ExtractTitle dupDoc
    Headings := ExtractHeadings dupDoc
    Links := ExtractLinks ⟨"http", "dup.test"⟩ (goResolve ⟨"http", "dup.test"⟩) dupDoc
    AccessibleLinks := countAccessible (linkResultsMap (fun _ => true)
      (ExtractLinks ⟨"http", "dup.test"⟩ (goResolve ⟨"http", "dup.test"⟩) dupDoc))
    HasLoginForm := (ExtractForms dupDoc).any isLoginForm
    HTMLVersion := ExtractHTMLVersion dupDoc }

/-- Claim C10: the per-link outcomes are stored keyed by raw href, so
`AccessibleLinks` counts distinct accessible URLs, and on a page carrying
the same accessible href twice it is strictly below the number of
accessible link occurrences. -/
theorem C10_dedup_map :
    (∀ (check : String → Bool) (links : List LinkInfo),
      countAccessible (linkResultsMap check links) =
        ((links.map (fun l => l.URL)).toFinset.filter (fun u => check u = true)).card) ∧
    (AnalyzeP3 1 "http://dup.test" (fun _ => some 200) (some dupDoc) (fun _ => true) =
        .ok c10res ∧
      c10res.AccessibleLinks = 1 ∧ c10res.Links.length = 2 ∧
      c10res.AccessibleLinks < c10res.Links.length) :=
  ⟨countAccessible_char, rfl, rfl, rfl, by decide⟩

/-! ## Claim C8 — title extraction -/

/-- Modelled from the spec (section 4.1): the text of the first `title`
element's first text-node child in document order, empty when there is no
such title. -/
def specTitle (doc : Node) : String :=
  match (preN doc).find? (fun n => n.type == NodeType.element && n.data == "title" &&
      n.children.any (fun c => c.type == NodeType.text)) with
  | some n =>
    match n.children.find? (fun c => c.type == NodeType.text) with
    | some c => c.data
    | none => ""
  | none => ""

/-- A document with two text-bearing titles. -/
def twoTitleDoc : Node :=
  .mk .document "" [] [.mk .element "title" [] [.mk .text "A" [] []],
    .mk .element "title" [] [.mk .text "B" [] []]]

/-- Claim C8 is false on the code: with two title elements, `ExtractTitle`
keeps overwriting its accumulator during the walk and returns the text of
the last title, not the first. -/
theorem C8_claim_false :
    specTitle twoTitleDoc = "A" ∧ ExtractTitle twoTitleDoc = "B" ∧ ("B" : String) ≠ "A" :=
  ⟨rfl, rfl, by decide⟩

/-- The rule `ExtractTitle` actually implements: the `Data` of the first
child — whatever its node kind — of the last `title` element with a child
encountered in preorder, empty if there is none. -/
def lastTitleRule (doc : Node) : String :=
  match (preN doc).reverse.find? titleCond with
  | some n => firstChildData n
  | none => ""

/-- Amended C8: the extracted title is the first-child `Data` of the LAST
`title` element (with a non-nil first child) in document order — the child
need not be a text node — and the empty string when no title element has a
child. -/
theorem C8_title_amended (doc : Node) :
    ExtractTitle doc = lastTitleRule doc := by
  unfold ExtractTitle lastTitleRule
  rw [foldN_eq_foldl]
  exact foldl_overwrite titleCond firstChildData (preN doc) ""

end Home24
